import Mathlib

/-!
Verification development for the mcp-youtube server (src/index.ts).

The development shallowly embeds the pure core of the server:
  - `chunkText` (src/index.ts lines 96-102),
  - `stripVttNonContent` (src/index.ts lines 262-312),
  - the subtitle cache (`cleanupExpiredCache`, lines 87-94) and the two
    request handlers `handleDownloadYoutubeUrl` (136-188) and
    `handleGetYoutubeSubtitles` (190-257).

Strings are modelled as Lean `String` (a wrapper around `List Char`);
JavaScript string primitives (`split`, `trim`, `includes`, `slice`,
number-to-string interpolation, the two literal regex replacements) are
embedded as executable Lean functions below.  Times are `Int` milliseconds
(JavaScript `Date.now()` values).  The external collaborators - the md5
digest from node:crypto and the yt-dlp transcript download - are passed to
the handlers as function parameters `digest` and `fetch`.
-/

/-- The empty string, named so defaults can be written without a
string literal in argument position. -/
def emptyStr : String := ""

/-- A single newline, the separator of the final join (src/index.ts
line 311). -/
def newlineStr : String := "\n"

/-- Decimal digit character for a value below ten. -/
def digitChar (d : Nat) : Char := Char.ofNat (48 + d)

/-- Decimal digit list, fuelled recursion (structural on the fuel so
the kernel can evaluate it; the wrapper below supplies enough fuel). -/
def decimalDigitsGo : Nat → Nat → List Char
  | 0, _ => []
  | fuel + 1, n =>
    if n < 10 then [digitChar n]
    else decimalDigitsGo fuel (n / 10) ++ [digitChar (n % 10)]

/-- Decimal digit list of a natural number, most significant first;
embeds the JavaScript number-to-string conversion of a non-negative
integer used by template interpolation. -/
def decimalDigits (n : Nat) : List Char := decimalDigitsGo (n + 1) n

/-- Decimal string of a natural number. -/
def decimalString (n : Nat) : String := String.mk (decimalDigits n)

/-- Decimal string of an integer, embedding the JavaScript
number-to-string conversion of an integer value. -/
def intString (i : Int) : String :=
  if i < 0 then String.mk ('-' :: decimalDigits (-i).toNat) else decimalString i.toNat

/-- The chunker, embedded at the character-list level.  Source
(src/index.ts lines 96-102):
  for (let i = 0; i < text.length; i += chunkSize)
    chunks.push(text.slice(i, i + chunkSize));
Each iteration emits the next `size` characters.  The source loop does
not terminate when `chunkSize <= 0` (see claim C3); the model returns
`[]` for `size = 0` and is faithful for every `size >= 1`. -/
def chunkTextGo (size : Nat) : Nat → List Char → List (List Char)
  | 0, _ => []
  | fuel + 1, l =>
    if size = 0 then []
    else if l = [] then []
    else l.take size :: chunkTextGo size fuel (l.drop size)

/-- The chunker on a character list: each step takes the next `size`
characters.  The fuel `l.length` is enough for every positive `size`
because each step consumes at least one character. -/
def chunkTextCh (size : Nat) (l : List Char) : List (List Char) :=
  chunkTextGo size l.length l

/-- The chunker at the string level: `chunkText(text, chunkSize)`. -/
def chunkText (text : String) (chunkSize : Nat) : List String :=
  (chunkTextCh chunkSize text.data).map String.mk

theorem chunkTextGo_fuel_eq (size : Nat) :
    ∀ (f1 f2 : Nat) (l : List Char), l.length ≤ f1 → l.length ≤ f2 →
      chunkTextGo size f1 l = chunkTextGo size f2 l := by
  intro f1
  induction f1 with
  | zero =>
    intro f2 l h1 h2
    have hnil : l = [] := List.length_eq_zero.mp (Nat.le_zero.mp h1)
    subst hnil
    cases f2 with
    | zero => rfl
    | succ k => simp [chunkTextGo]
  | succ f1 ih =>
    intro f2 l h1 h2
    cases f2 with
    | zero =>
      have hnil : l = [] := List.length_eq_zero.mp (Nat.le_zero.mp h2)
      subst hnil
      simp [chunkTextGo]
    | succ k =>
      by_cases hs : size = 0
      · simp [chunkTextGo, hs]
      · by_cases hnil : l = []
        · simp [chunkTextGo, hnil]
        · have hlen : 0 < l.length := List.length_pos.mpr hnil
          have hpos : 0 < size := Nat.pos_of_ne_zero hs
          simp only [chunkTextGo, hs, hnil, if_false, ite_false]
          rw [ih k (l.drop size) (by simp only [List.length_drop]; omega)
            (by simp only [List.length_drop]; omega)]

theorem chunkTextCh_nil (size : Nat) : chunkTextCh size [] = [] := rfl

theorem chunkTextCh_zero (l : List Char) : chunkTextCh 0 l = [] := by
  show chunkTextGo 0 l.length l = []
  cases l.length with
  | zero => rfl
  | succ m => simp [chunkTextGo]

theorem chunkTextCh_cons (size : Nat) (hs : size ≠ 0) (l : List Char) (hl : l ≠ []) :
    chunkTextCh size l = l.take size :: chunkTextCh size (l.drop size) := by
  have hlen : 0 < l.length := List.length_pos.mpr hl
  obtain ⟨m, hm⟩ : ∃ m, l.length = m + 1 := ⟨l.length - 1, by omega⟩
  show chunkTextGo size l.length l = _
  rw [hm]
  simp only [chunkTextGo, hs, hl, if_false, ite_false]
  rw [chunkTextGo_fuel_eq size m (l.drop size).length (l.drop size)
    (by simp only [List.length_drop]; omega) (Nat.le_refl _)]
  rfl

theorem chunkTextCh_join_aux (size : Nat) (hs : 1 ≤ size) :
    ∀ (n : Nat) (l : List Char), l.length ≤ n → (chunkTextCh size l).flatten = l := by
  intro n
  induction n with
  | zero =>
    intro l hl
    have : l = [] := List.length_eq_zero.mp (Nat.le_zero.mp hl)
    subst this; simp [chunkTextCh_nil]
  | succ n ih =>
    intro l hl
    by_cases hnil : l = []
    · subst hnil; simp [chunkTextCh_nil]
    · rw [chunkTextCh_cons size (by omega) l hnil]
      have hlen : 0 < l.length := List.length_pos.mpr hnil
      have hdrop : (l.drop size).length ≤ n := by
        simp only [List.length_drop]; omega
      rw [List.flatten_cons, ih _ hdrop, List.take_append_drop]

theorem chunkTextCh_join (size : Nat) (hs : 1 ≤ size) (l : List Char) :
    (chunkTextCh size l).flatten = l :=
  chunkTextCh_join_aux size hs l.length l (Nat.le_refl _)

theorem chunkTextCh_length_bounds_aux (size : Nat) :
    ∀ (n : Nat) (l : List Char), l.length ≤ n →
      ∀ c ∈ chunkTextCh size l, 0 < c.length ∧ c.length ≤ size := by
  intro n
  induction n with
  | zero =>
    intro l hl c hc
    have : l = [] := List.length_eq_zero.mp (Nat.le_zero.mp hl)
    subst this; rw [chunkTextCh_nil] at hc; simp at hc
  | succ n ih =>
    intro l hl c hc
    by_cases hs : size = 0
    · subst hs; rw [chunkTextCh_zero] at hc; simp at hc
    · by_cases hnil : l = []
      · subst hnil; rw [chunkTextCh_nil] at hc; simp at hc
      · rw [chunkTextCh_cons size hs l hnil] at hc
        have hlen : 0 < l.length := List.length_pos.mpr hnil
        rcases List.mem_cons.mp hc with h | h
        · subst h; simp only [List.length_take]
          constructor <;> omega
        · have hdrop : (l.drop size).length ≤ n := by
            simp only [List.length_drop]; omega
          exact ih _ hdrop _ h

theorem chunkTextCh_length_bounds (size : Nat) (l : List Char)
    (c : List Char) (hc : c ∈ chunkTextCh size l) : 0 < c.length ∧ c.length ≤ size :=
  chunkTextCh_length_bounds_aux size l.length l (Nat.le_refl _) c hc

theorem chunkTextCh_getD_not_last_aux (size : Nat) (hs : 1 ≤ size) :
    ∀ (n : Nat) (l : List Char), l.length ≤ n →
      ∀ (i : Nat), i + 1 < (chunkTextCh size l).length →
        ((chunkTextCh size l).getD i []).length = size := by
  intro n
  induction n with
  | zero =>
    intro l hl i hnl
    have : l = [] := List.length_eq_zero.mp (Nat.le_zero.mp hl)
    subst this; rw [chunkTextCh_nil] at hnl; simp at hnl
  | succ n ih =>
    intro l hl i hnl
    by_cases hnil : l = []
    · subst hnil; rw [chunkTextCh_nil] at hnl; simp at hnl
    · have hstep := chunkTextCh_cons size (by omega) l hnil
      have hlen : 0 < l.length := List.length_pos.mpr hnil
      have hdrop : (l.drop size).length ≤ n := by
        simp only [List.length_drop]; omega
      rw [hstep] at hnl ⊢
      match i with
      | 0 =>
        -- the head chunk is followed by another chunk, so the tail list is
        -- nonempty, hence fewer than all of l fit in the head chunk
        have htail : chunkTextCh size (l.drop size) ≠ [] := by
          intro habs
          rw [habs] at hnl; simp at hnl
        have hdnil : l.drop size ≠ [] := by
          intro habs
          rw [habs, chunkTextCh_nil] at htail; exact htail rfl
        have hsz : size < l.length := by
          by_contra hge
          exact hdnil (List.drop_eq_nil_of_le (Nat.le_of_not_lt hge))
        simp only [List.getD_cons_zero, List.length_take]; omega
      | j + 1 =>
        simp only [List.getD_cons_succ]
        exact ih _ hdrop _ (by simpa using hnl)

theorem chunkTextCh_getD_not_last (size : Nat) (hs : 1 ≤ size) (l : List Char)
    (i : Nat) (hnl : i + 1 < (chunkTextCh size l).length) :
    ((chunkTextCh size l).getD i []).length = size :=
  chunkTextCh_getD_not_last_aux size hs l.length l (Nat.le_refl _) i hnl

/-- Does the second list start with the first?  Embeds prefix testing of
JavaScript strings at a position. -/
def startsWithCh : List Char → List Char → Bool
  | [], _ => true
  | _ :: _, [] => false
  | a :: as, b :: bs => a = b && startsWithCh as bs

/-- Substring containment test: embeds the JavaScript
`String.prototype.includes` used by stripVttNonContent. -/
def includesCh (needle : List Char) : List Char → Bool
  | [] => startsWithCh needle []
  | c :: rest => startsWithCh needle (c :: rest) || includesCh needle rest

/-- Whitespace predicate of the JavaScript `String.prototype.trim` for
the ASCII range relevant to subtitle files. -/
def jsWhite (c : Char) : Bool :=
  c = ' ' || c = '\t' || c = '\n' || c = '\r'

/-- Embeds `String.prototype.trim`: removes leading and trailing
whitespace from a character list. -/
def trimCh (l : List Char) : List Char :=
  ((l.dropWhile jsWhite).reverse.dropWhile jsWhite).reverse

/-- Embeds `String.prototype.split("\n")`: the JavaScript split on a
single newline separator, producing the list of lines (the result is
never empty; an empty input yields one empty line). -/
def splitNewline : List Char → List (List Char)
  | [] => [[]]
  | c :: rest =>
    let r := splitNewline rest
    if c = '\n' then [] :: r
    else
      match r with
      | [] => [[c]]
      | h :: t => (c :: h) :: t

/-- Is this character a decimal digit?  Used by the inline timestamp-tag
pattern of stripVttNonContent. -/
def isDigitCh (c : Char) : Bool := '0' ≤ c && c ≤ '9'

/-- Embeds the first replacement of src/index.ts line 293:
`.replace(/<\d{2}:\d{2}:\d{2}\.\d{3}>|<\/c>/g, "")` - a global
left-to-right removal of every inline timestamp tag <dd:dd:dd.ddd> and
every closing style tag </c>, scanning left to right and continuing
after each removal exactly as the regex engine does. -/
def stripTsGo : Nat → List Char → List Char
  | 0, _ => []
  | _, [] => []
  | fuel + 1, '<' :: tl1@(d1 :: d2 :: ':' :: d3 :: d4 :: ':' :: d5 :: d6 :: '.' :: d7 :: d8 :: d9 :: '>' :: rest) =>
    if isDigitCh d1 && isDigitCh d2 && isDigitCh d3 && isDigitCh d4 && isDigitCh d5 &&
       isDigitCh d6 && isDigitCh d7 && isDigitCh d8 && isDigitCh d9 then
      stripTsGo fuel rest
    else '<' :: stripTsGo fuel tl1
  | fuel + 1, '<' :: '/' :: 'c' :: '>' :: rest => stripTsGo fuel rest
  | fuel + 1, c :: rest => c :: stripTsGo fuel rest

/-- The first replacement, wrapped with enough fuel: every scan step
consumes at least one character, so `l.length` steps always finish. -/
def stripTsAndCloseTags (l : List Char) : List Char := stripTsGo l.length l

/-- Embeds the second replacement of src/index.ts line 294:
`.replace(/<c>/g, "")` - a global removal of every opening style tag. -/
def stripOpenCTags : List Char → List Char
  | [] => []
  | '<' :: 'c' :: '>' :: rest => stripOpenCTags rest
  | c :: rest => c :: stripOpenCTags rest

/-- Adjacent-duplicate collapse, continuation: each element is compared
with its predecessor in the original list (src/index.ts lines 302-309). -/
def dedupAdjacentGo (prev : List Char) : List (List Char) → List (List Char)
  | [] => []
  | y :: rest =>
    if y = prev then dedupAdjacentGo y rest else y :: dedupAdjacentGo y rest

/-- Adjacent-duplicate collapse of src/index.ts lines 302-309: a line
identical to its immediate predecessor is dropped. -/
def dedupAdjacent : List (List Char) → List (List Char)
  | [] => []
  | x :: rest => x :: dedupAdjacentGo x rest

/-- Token constants used by stripVttNonContent. -/
def webvttTok : List Char := "WEBVTT".data

def arrowTok : List Char := "-->".data

def alignTok : List Char := "align:".data

def positionTok : List Char := "position:".data

/-- The caption normalizer `stripVttNonContent` (src/index.ts lines
262-312), embedded line by line: empty/blank input yields empty output;
a document with fewer than 4 lines or whose first line does not contain
WEBVTT yields empty output; otherwise the first 4 lines are dropped,
timing lines (containing the arrow), positioning lines (containing
align: or position:) and blank lines are discarded, inline tags are
removed and each surviving line is trimmed, lines that became empty are
dropped, immediately-adjacent duplicate lines are collapsed, and the
result is joined with single newlines. -/
def stripVttNonContent (vttContent : String) : String :=
  if vttContent.data = [] || trimCh vttContent.data = [] then ""
  else
    let lines := splitNewline vttContent.data
    if lines.length < 4 || !(includesCh webvttTok (lines.headD [])) then ""
    else
      let contentLines := lines.drop 4
      let textLines := contentLines.filterMap (fun line =>
        if includesCh arrowTok line then none
        else if includesCh alignTok line || includesCh positionTok line then none
        else if trimCh line = [] then none
        else
          let cleanedLine := stripOpenCTags (stripTsAndCloseTags line)
          if trimCh cleanedLine = [] then none
          else some (trimCh cleanedLine))
      let uniqueLines := dedupAdjacent textLines
      String.intercalate newlineStr (uniqueLines.map String.mk)

/-- A cache entry (src/index.ts lines 29-34, interface SubtitleCache). -/
structure SubtitleCache where
  url : String
  content : String
  chunks : List String
  timestamp : Int
deriving DecidableEq

/-- The cache map keyed by the md5 hex digest of the url.  JavaScript
Map state is modelled as a lookup function. -/
def CacheMap : Type := String → Option SubtitleCache

/-- Cache time-to-live (src/index.ts line 37): 30 minutes in
milliseconds. -/
def CACHE_TTL : Int := 30 * 60 * 1000

/-- Default chunk size (src/index.ts line 38). -/
def DEFAULT_CHUNK_SIZE : Int := 15000

/-- The expiry sweep (src/index.ts lines 87-94): every entry with
`now - cache.timestamp > CACHE_TTL` is deleted; deleting the entry
under iteration of a JavaScript Map is safe, so the sweep is the
pointwise filter below. -/
def cleanupExpiredCache (now : Int) (st : CacheMap) : CacheMap :=
  fun key =>
    match st key with
    | some cache => if now - cache.timestamp > CACHE_TTL then none else some cache
    | none => none

/-- Embeds `args.chunk_size || DEFAULT_CHUNK_SIZE` (src/index.ts line
194): the JavaScript or-operator replaces the falsy values `undefined`
(modelled `none`) and `0` by the default and passes every other number
through - including negative ones. -/
def resolveChunkSize (chunkSizeArg : Option Int) : Int :=
  match chunkSizeArg with
  | none => DEFAULT_CHUNK_SIZE
  | some n => if n = 0 then DEFAULT_CHUNK_SIZE else n

/-- A tool response: the MCP text payload and the isError flag.  The
text is an Option because reading index 0 of an empty chunk array
(src/index.ts line 160) produces the JavaScript value undefined,
modelled as `none` (see claim C10); every other path produces a real
string. -/
structure ToolResponse where
  text : Option String
  isError : Bool
deriving DecidableEq

/-- Result of one handler invocation: the cache state afterwards, the
entry the response was built from, the response, and whether the
external Transcript Source (downloadSubtitles, yt-dlp) was invoked. -/
structure HandlerResult where
  state : CacheMap
  entry : SubtitleCache
  response : ToolResponse
  fetched : Bool

/-- The out-of-range error text of src/index.ts line 217. -/
def outOfRangeText (chunkIndex : Int) (totalChunks : Nat) : String :=
  "Error: chunk_index " ++ intString chunkIndex ++
    " is out of range. Available chunks: 0-" ++ intString ((totalChunks : Int) - 1)

/-- The literal next-chunk hint prefix of src/index.ts line 233. -/
def nextChunkHint : String := "To get the next chunk, use: get_youtube_subtitles with chunk_index="

/-- The literal terminal marker of src/index.ts line 235. -/
def lastChunkMarker : String := "This is the last chunk."

/-- The pagination footer appended by handleGetYoutubeSubtitles
(src/index.ts lines 228-236). -/
def getPaginationFooter (chunkIndex : Int) (chunkLen totalChunks contentLen : Nat) : String :=
  "\n\n=== PAGINATION INFO ===\n" ++
    "This is chunk " ++ intString (chunkIndex + 1) ++ " of " ++ decimalString totalChunks ++
    " (" ++ decimalString chunkLen ++ " characters)\n" ++
    "Total content length: " ++ decimalString contentLen ++ " characters\n" ++
    (if chunkIndex < (totalChunks : Int) - 1 then
      nextChunkHint ++ intString (chunkIndex + 1)
    else lastChunkMarker)

/-- The chunk lookup and response construction of handleGetYoutubeSubtitles
(src/index.ts lines 212-245): an index outside [0, chunks.length) yields the
out-of-range error response with isError set; a valid index yields the chunk
text with the pagination footer appended. -/
def renderChunk (cache : SubtitleCache) (chunkIndex : Int) : ToolResponse :=
  if chunkIndex < 0 || (cache.chunks.length : Int) ≤ chunkIndex then
    { text := some (outOfRangeText chunkIndex cache.chunks.length), isError := true }
  else
    let chunk := cache.chunks.getD chunkIndex.toNat emptyStr
    { text := some (chunk ++
        getPaginationFooter chunkIndex chunk.length cache.chunks.length cache.content.length),
      isError := false }

/-- The first-chunk response of handleDownloadYoutubeUrl (src/index.ts
lines 157-176): chunk 0, with the footer only when more than one chunk
exists.  When the chunk list is empty, `cache.chunks[0]` is the
JavaScript value undefined (`none`); `totalChunks` is then 0, so no
footer is appended and the undefined value flows into the response. -/
def renderFirstChunk (cache : SubtitleCache) : ToolResponse :=
  match cache.chunks.head? with
  | none => { text := none, isError := false }
  | some c0 =>
    if 1 < cache.chunks.length then
      { text := some (c0 ++ "\n\n=== PAGINATION INFO ===\n" ++
          "This is chunk 1 of " ++ decimalString cache.chunks.length ++
          " (" ++ decimalString c0.length ++ " characters)\n" ++
          "Total content length: " ++ decimalString cache.content.length ++ " characters\n" ++
          nextChunkHint ++ "1"),
        isError := false }
    else { text := some c0, isError := false }

/-- The get_youtube_subtitles handler (src/index.ts lines 190-257).
`digest` stands for the md5 hex digest of node:crypto (getCacheKey,
lines 83-85) and `fetch` for the external downloadSubtitles collaborator
(lines 104-134), both external to this core.  On a cache miss the
resolved chunk size is passed to the chunker; the source does not
terminate when that size is negative (claim C3), so the model -
faithful for every positive size - clamps with Int.toNat only to stay
total. -/
def handleGetYoutubeSubtitles (digest : String → String) (fetch : String → String)
    (now : Int) (st : CacheMap) (url : String) (chunkIndex : Int)
    (chunkSizeArg : Option Int) : HandlerResult :=
  let st1 := cleanupExpiredCache now st
  let cacheKey := digest url
  let chunkSize := resolveChunkSize chunkSizeArg
  match st1 cacheKey with
  | some cache =>
    { state := st1, entry := cache, response := renderChunk cache chunkIndex, fetched := false }
  | none =>
    let content := fetch url
    let chunks := chunkText content chunkSize.toNat
    let cache : SubtitleCache :=
      { url := url, content := content, chunks := chunks, timestamp := now }
    let st2 : CacheMap := fun k => if k = cacheKey then some cache else st1 k
    { state := st2, entry := cache, response := renderChunk cache chunkIndex, fetched := true }

/-- The download_youtube_url handler (src/index.ts lines 136-188):
identical cache logic with the default chunk size, and the first-chunk
response shape. -/
def handleDownloadYoutubeUrl (digest : String → String) (fetch : String → String)
    (now : Int) (st : CacheMap) (url : String) : HandlerResult :=
  let st1 := cleanupExpiredCache now st
  let cacheKey := digest url
  match st1 cacheKey with
  | some cache =>
    { state := st1, entry := cache, response := renderFirstChunk cache, fetched := false }
  | none =>
    let content := fetch url
    let chunks := chunkText content DEFAULT_CHUNK_SIZE.toNat
    let cache : SubtitleCache :=
      { url := url, content := content, chunks := chunks, timestamp := now }
    let st2 : CacheMap := fun k => if k = cacheKey then some cache else st1 k
    { state := st2, entry := cache, response := renderFirstChunk cache, fetched := true }

theorem stringDataAppend (a b : String) : (a ++ b).data = a.data ++ b.data := by
  cases a
  cases b
  rfl

theorem stringMkData (a : String) : String.mk a.data = a := by
  cases a
  rfl

theorem joinMapMk_aux :
    ∀ (L : List (List Char)) (acc : String),
      List.foldl (· ++ ·) acc (L.map String.mk) = String.mk (acc.data ++ L.flatten) := by
  intro L
  induction L with
  | nil =>
    intro acc
    simp only [List.map_nil, List.foldl_nil, List.flatten_nil, List.append_nil, stringMkData]
  | cons x L ih =>
    intro acc
    simp only [List.map_cons, List.foldl_cons, List.flatten_cons]
    rw [ih (acc ++ String.mk x)]
    have hd : (acc ++ String.mk x).data = acc.data ++ x := stringDataAppend acc (String.mk x)
    rw [hd]
    congr 1
    simp [List.append_assoc]

theorem joinMapMk (L : List (List Char)) :
    String.join (L.map String.mk) = String.mk L.flatten := by
  show List.foldl (· ++ ·) "" (L.map String.mk) = _
  rw [joinMapMk_aux]
  rfl

theorem getDMapMk :
    ∀ (L : List (List Char)) (i : Nat),
      (L.map String.mk).getD i emptyStr = String.mk (L.getD i []) := by
  intro L
  induction L with
  | nil => intro i; cases i <;> rfl
  | cons x L ih =>
    intro i
    cases i with
    | zero => rfl
    | succ j =>
      simp only [List.map_cons, List.getD_cons_succ]
      exact ih j

theorem getLastMapMk :
    ∀ (L : List (List Char)) (s : String),
      (L.map String.mk).getLast? = some s →
      ∃ lc, L.getLast? = some lc ∧ s = String.mk lc ∧ lc ∈ L := by
  intro L
  induction L with
  | nil => intro s h; simp at h
  | cons x L ih =>
    intro s h
    cases L with
    | nil =>
      simp only [List.map_cons, List.map_nil, List.getLast?_singleton,
        Option.some.injEq] at h
      exact ⟨x, by simp, h.symm, by simp⟩
    | cons y L' =>
      rw [List.map_cons, List.map_cons, List.getLast?_cons_cons, ← List.map_cons] at h
      obtain ⟨lc, h1, h2, h3⟩ := ih s h
      exact ⟨lc, by rw [List.getLast?_cons_cons]; exact h1, h2, by simp [h3]⟩

/-- Claim C1: for every string T and positive size S, concatenating
chunkText(T, S) in order yields exactly T; every chunk except possibly
the last has length exactly S; the last chunk has length between 1 and
S; chunkText of the empty string is the empty sequence. -/
theorem claimC1_chunker_roundtrip (T : String) (S : Nat) (hS : 1 ≤ S) :
    String.join (chunkText T S) = T
    ∧ (∀ i : Nat, i + 1 < (chunkText T S).length → ((chunkText T S).getD i emptyStr).length = S)
    ∧ (∀ last : String, (chunkText T S).getLast? = some last →
        1 ≤ last.length ∧ last.length ≤ S)
    ∧ chunkText emptyStr S = [] := by
  refine ⟨?_, ?_, ?_, ?_⟩
  · rw [chunkText, joinMapMk, chunkTextCh_join S hS, stringMkData]
  · intro i hi
    rw [chunkText] at hi ⊢
    rw [getDMapMk]
    show ((chunkTextCh S T.data).getD i []).length = S
    exact chunkTextCh_getD_not_last S hS T.data i (by simpa using hi)
  · intro last hlast
    rw [chunkText] at hlast
    obtain ⟨lc, _, hmk, hmem⟩ := getLastMapMk _ _ hlast
    have hb := chunkTextCh_length_bounds S T.data lc hmem
    subst hmk
    exact ⟨hb.1, hb.2⟩
  · rw [chunkText]
    rfl

/-- A five-character sample text for the chunker witness. -/
def abcdeStr : String := "abcde"

/-- Claim C1 witness: the round-trip instantiated at T = "abcde",
S = 2. -/
theorem claimC1_chunker_roundtrip_witness :
    String.join (chunkText abcdeStr 2) = abcdeStr
    ∧ (∀ i : Nat, i + 1 < (chunkText abcdeStr 2).length →
        ((chunkText abcdeStr 2).getD i emptyStr).length = 2)
    ∧ (∀ last : String, (chunkText abcdeStr 2).getLast? = some last →
        1 ≤ last.length ∧ last.length ≤ 2)
    ∧ chunkText emptyStr 2 = [] :=
  claimC1_chunker_roundtrip abcdeStr 2 (by norm_num)

/-- Claim C3: the spec requires every non-positive chunk size to be
rejected or replaced before the chunker runs.  The code (src/index.ts
line 194, `args.chunk_size || DEFAULT_CHUNK_SIZE`) replaces only the
falsy values 0 and undefined; a negative chunk_size such as -1 passes
through unchanged and is handed to chunkText on first population, whose
loop `for (let i = 0; i < text.length; i += chunkSize)` never advances
past the end for a negative size, so it does not terminate on non-empty
text.  This theorem evaluates the faulty resolution at the failing
input. -/
theorem claimC3_negative_chunk_size_reaches_chunker :
    resolveChunkSize (some (-1)) = -1
    ∧ ¬(1 ≤ resolveChunkSize (some (-1)))
    ∧ resolveChunkSize (some 0) = DEFAULT_CHUNK_SIZE
    ∧ resolveChunkSize none = DEFAULT_CHUNK_SIZE := by
  decide

/-- A cache entry of age 0 used for the expiry-boundary counterexample. -/
def entryC4 : SubtitleCache :=
  { url := "u", content := "x", chunks := [ "x"], timestamp := 0 }

/-- A cache state holding entryC4 under its key. -/
def stateC4 : CacheMap :=
  fun key => if key = "u" then some entryC4 else none

/-- A concrete url constant. -/
def urlC4 : String := "u"

/-- A fetch stub returning a fixed transcript. -/
def fetchX : String → String := fun _ => "x"

/-- Claim C4 counterexample: at age exactly the TTL (now = CACHE_TTL,
timestamp = 0) the sweep keeps the entry - the code removes only ages
strictly greater than the TTL - and a get-or-populate call at that age
is served from the cache without a fresh fetch, contradicting the claim
that every entry of age >= TTL is removed and refetched. -/
theorem claimC4_counterexample :
    CACHE_TTL - entryC4.timestamp = CACHE_TTL
    ∧ cleanupExpiredCache CACHE_TTL stateC4 urlC4 = some entryC4
    ∧ (handleGetYoutubeSubtitles id fetchX CACHE_TTL stateC4 urlC4 0 none).fetched = false := by
  refine ⟨by decide, by decide, by decide⟩

/-- The entry built on a get_youtube_subtitles cache miss. -/
def freshGetEntry (fetch : String → String) (now : Int) (url : String)
    (chunkSizeArg : Option Int) : SubtitleCache :=
  { url := url, content := fetch url,
    chunks := chunkText (fetch url) (resolveChunkSize chunkSizeArg).toNat,
    timestamp := now }

/-- The entry built on a download_youtube_url cache miss. -/
def freshDownloadEntry (fetch : String → String) (now : Int) (url : String) : SubtitleCache :=
  { url := url, content := fetch url,
    chunks := chunkText (fetch url) DEFAULT_CHUNK_SIZE.toNat,
    timestamp := now }

theorem handleGet_hit (digest fetch : String → String) (now : Int) (st : CacheMap)
    (url : String) (chunkIndex : Int) (chunkSizeArg : Option Int) (e : SubtitleCache)
    (h : cleanupExpiredCache now st (digest url) = some e) :
    handleGetYoutubeSubtitles digest fetch now st url chunkIndex chunkSizeArg =
      { state := cleanupExpiredCache now st, entry := e,
        response := renderChunk e chunkIndex, fetched := false } := by
  unfold handleGetYoutubeSubtitles
  simp only [h]

theorem handleGet_miss (digest fetch : String → String) (now : Int) (st : CacheMap)
    (url : String) (chunkIndex : Int) (chunkSizeArg : Option Int)
    (h : cleanupExpiredCache now st (digest url) = none) :
    handleGetYoutubeSubtitles digest fetch now st url chunkIndex chunkSizeArg =
      { state := fun k => if k = digest url
            then some (freshGetEntry fetch now url chunkSizeArg)
            else cleanupExpiredCache now st k,
        entry := freshGetEntry fetch now url chunkSizeArg,
        response := renderChunk (freshGetEntry fetch now url chunkSizeArg) chunkIndex,
        fetched := true } := by
  unfold handleGetYoutubeSubtitles freshGetEntry
  simp only [h]

theorem handleDownload_hit (digest fetch : String → String) (now : Int) (st : CacheMap)
    (url : String) (e : SubtitleCache)
    (h : cleanupExpiredCache now st (digest url) = some e) :
    handleDownloadYoutubeUrl digest fetch now st url =
      { state := cleanupExpiredCache now st, entry := e,
        response := renderFirstChunk e, fetched := false } := by
  unfold handleDownloadYoutubeUrl
  simp only [h]

theorem handleDownload_miss (digest fetch : String → String) (now : Int) (st : CacheMap)
    (url : String)
    (h : cleanupExpiredCache now st (digest url) = none) :
    handleDownloadYoutubeUrl digest fetch now st url =
      { state := fun k => if k = digest url
            then some (freshDownloadEntry fetch now url)
            else cleanupExpiredCache now st k,
        entry := freshDownloadEntry fetch now url,
        response := renderFirstChunk (freshDownloadEntry fetch now url),
        fetched := true } := by
  unfold handleDownloadYoutubeUrl freshDownloadEntry
  simp only [h]

theorem cleanup_keep (now : Int) (st : CacheMap) (key : String) (e : SubtitleCache)
    (hst : st key = some e) (hfresh : now - e.timestamp ≤ CACHE_TTL) :
    cleanupExpiredCache now st key = some e := by
  unfold cleanupExpiredCache
  rw [hst]
  simp only
  split
  · omega
  · rfl

theorem cleanup_drop (now : Int) (st : CacheMap) (key : String) (e : SubtitleCache)
    (hst : st key = some e) (hexp : CACHE_TTL < now - e.timestamp) :
    cleanupExpiredCache now st key = none := by
  unfold cleanupExpiredCache
  rw [hst]
  simp only
  split
  · rfl
  · omega

/-- Claim C4 as amended: the sweep removes exactly the entries whose age
is STRICTLY greater than the 30-minute TTL and keeps every entry of age
at most the TTL; consequently a get-or-populate call finding the entry
expired (age > TTL) performs a fresh fetch and stores an entry
timestamped now, strictly later than the old timestamp. -/
theorem claimC4_sweep_strict (now : Int) (st : CacheMap) (key : String)
    (e : SubtitleCache) (digest : String → String) (fetch : String → String)
    (url : String) (chunkIndex : Int) (chunkSizeArg : Option Int)
    (hst : st key = some e) (hkey : digest url = key) :
    (CACHE_TTL < now - e.timestamp →
      cleanupExpiredCache now st key = none
      ∧ (handleGetYoutubeSubtitles digest fetch now st url chunkIndex chunkSizeArg).fetched = true
      ∧ (handleGetYoutubeSubtitles digest fetch now st url chunkIndex chunkSizeArg).entry.timestamp = now
      ∧ (handleGetYoutubeSubtitles digest fetch now st url chunkIndex chunkSizeArg).state key =
          some (handleGetYoutubeSubtitles digest fetch now st url chunkIndex chunkSizeArg).entry
      ∧ e.timestamp < now)
    ∧ (now - e.timestamp ≤ CACHE_TTL →
      cleanupExpiredCache now st key = some e
      ∧ (handleGetYoutubeSubtitles digest fetch now st url chunkIndex chunkSizeArg).fetched = false) := by
  constructor
  · intro hexp
    have hclean : cleanupExpiredCache now st (digest url) = none := by
      rw [hkey]
      exact cleanup_drop now st key e hst hexp
    rw [handleGet_miss digest fetch now st url chunkIndex chunkSizeArg hclean]
    refine ⟨by rw [← hkey]; exact hclean, rfl, rfl, ?_, ?_⟩
    · simp [hkey]
    · have hpos : (0 : Int) < CACHE_TTL := by decide
      omega
  · intro hfresh
    have hclean : cleanupExpiredCache now st (digest url) = some e := by
      rw [hkey]
      exact cleanup_keep now st key e hst hfresh
    rw [handleGet_hit digest fetch now st url chunkIndex chunkSizeArg e hclean]
    exact ⟨by rw [← hkey]; exact hclean, rfl⟩

/-- Claim C4 amended witness: instantiated one millisecond past the TTL
for the expired half, with the unexpired half vacuous. -/
theorem claimC4_sweep_strict_witness :
    (CACHE_TTL < CACHE_TTL + 1 - entryC4.timestamp →
      cleanupExpiredCache (CACHE_TTL + 1) stateC4 urlC4 = none
      ∧ (handleGetYoutubeSubtitles id fetchX (CACHE_TTL + 1) stateC4 urlC4 0 none).fetched = true
      ∧ (handleGetYoutubeSubtitles id fetchX (CACHE_TTL + 1) stateC4 urlC4 0 none).entry.timestamp = CACHE_TTL + 1
      ∧ (handleGetYoutubeSubtitles id fetchX (CACHE_TTL + 1) stateC4 urlC4 0 none).state urlC4 =
          some (handleGetYoutubeSubtitles id fetchX (CACHE_TTL + 1) stateC4 urlC4 0 none).entry
      ∧ entryC4.timestamp < CACHE_TTL + 1)
    ∧ (CACHE_TTL + 1 - entryC4.timestamp ≤ CACHE_TTL →
      cleanupExpiredCache (CACHE_TTL + 1) stateC4 urlC4 = some entryC4
      ∧ (handleGetYoutubeSubtitles id fetchX (CACHE_TTL + 1) stateC4 urlC4 0 none).fetched = false) :=
  claimC4_sweep_strict (CACHE_TTL + 1) stateC4 urlC4 entryC4 id fetchX urlC4 0 none
    (by decide) rfl

/-- An input that does not start with WEBVTT but whose first line
contains it. -/
def c5Input : String := " WEBVTT\n\n\n\nHello"

/-- Claim C5 counterexample: the code checks lines[0].includes("WEBVTT")
(src/index.ts line 269), not a string start; an input whose first line
merely contains the marker, without starting with it, is accepted and
yields non-empty output. -/
theorem claimC5_counterexample :
    startsWithCh webvttTok c5Input.data = false
    ∧ stripVttNonContent c5Input = "Hello"
    ∧ stripVttNonContent c5Input ≠ "" := by
  refine ⟨by decide, by decide, by decide⟩

/-- Claim C5 as amended: for every input whose FIRST LINE does not
CONTAIN the marker token WEBVTT, the normalizer returns empty text
(the containment check is what the code performs; with fewer than 4
lines the result is also empty, but that is not needed here). -/
theorem claimC5_no_marker_in_first_line (s : String)
    (h : includesCh webvttTok ((splitNewline s.data).headD []) = false) :
    stripVttNonContent s = "" := by
  have h' : includesCh webvttTok ((splitNewline s.data).head?.getD []) = false := by
    rw [← List.headD_eq_head?_getD]
    exact h
  simp [stripVttNonContent, h']

/-- Plain text with no marker anywhere. -/
def noMarkerStr : String := "plain text"

/-- Claim C5 amended witness: instantiated at plain marker-free text. -/
theorem claimC5_no_marker_in_first_line_witness :
    includesCh webvttTok ((splitNewline noMarkerStr.data).headD []) = false
    ∧ stripVttNonContent noMarkerStr = "" :=
  ⟨by decide, claimC5_no_marker_in_first_line noMarkerStr (by decide)⟩

/-- A well-formed minimal VTT document with one content line. -/
def c6Valid : String := "WEBVTT\n\n\n\nHello"

/-- Claim C6 counterexample: the normalizer is not idempotent.  A valid
document normalizes to "Hello"; renormalizing "Hello" yields "" because
the clean text has fewer than 4 lines and no WEBVTT marker, so the
structural validation rejects it. -/
theorem claimC6_counterexample :
    stripVttNonContent c6Valid = "Hello"
    ∧ stripVttNonContent (stripVttNonContent c6Valid) = ""
    ∧ stripVttNonContent (stripVttNonContent c6Valid) ≠ stripVttNonContent c6Valid := by
  refine ⟨by decide, by decide, by decide⟩

/-- Claim C6 as amended: the normalizer is idempotent on every input
whose normalization is empty - for every x with
stripVttNonContent x = "", applying the normalizer again returns the
same (empty) result.  Idempotence does not hold in general: the
counterexample shows a valid input whose output "Hello" re-normalizes
to "". -/
theorem claimC6_idempotent_only_on_empty (x : String)
    (h : stripVttNonContent x = "") :
    stripVttNonContent (stripVttNonContent x) = stripVttNonContent x := by
  rw [h]
  decide

/-- Claim C6 amended witness: instantiated at marker-free text, whose
normalization is empty. -/
theorem claimC6_idempotent_only_on_empty_witness :
    stripVttNonContent noMarkerStr = ""
    ∧ stripVttNonContent (stripVttNonContent noMarkerStr) = stripVttNonContent noMarkerStr :=
  ⟨by decide, claimC6_idempotent_only_on_empty noMarkerStr (by decide)⟩

/-- The raw input of the end-to-end scenario. -/
def c7Input : String :=
  "WEBVTT\n\n00:00:00.000 --> 00:00:01.000\nHello\n\n00:00:01.000 --> 00:00:02.000\nHello\n\n00:00:02.000 --> 00:00:03.000\nWorld\n"

/-- Claim C7: the end-to-end scenario input normalizes exactly to
"Hello\nWorld". -/
theorem claimC7_end_to_end_normalization :
    stripVttNonContent c7Input = "Hello\nWorld" := by
  decide

/-- Claim C2: a second get-or-populate call with the same URL, arriving
while the stored entry is unexpired (age at most the TTL, so it
survives the sweep), is served exactly the stored entry - identical
cache key, content, chunks and timestamp, as one structure - regardless
of the chunk_size argument, without invoking the Transcript Source; the
entry also stays in the cache unchanged.  Both public operations are
covered as the second call. -/
theorem claimC2_unexpired_hit_returns_stored_entry (digest fetch : String → String)
    (now : Int) (st : CacheMap) (url : String) (chunkIndex : Int)
    (chunkSizeArg : Option Int) (e : SubtitleCache)
    (hst : st (digest url) = some e) (hfresh : now - e.timestamp ≤ CACHE_TTL) :
    ((handleGetYoutubeSubtitles digest fetch now st url chunkIndex chunkSizeArg).entry = e
      ∧ (handleGetYoutubeSubtitles digest fetch now st url chunkIndex chunkSizeArg).fetched = false
      ∧ (handleGetYoutubeSubtitles digest fetch now st url chunkIndex chunkSizeArg).state (digest url) = some e
      ∧ (handleGetYoutubeSubtitles digest fetch now st url chunkIndex chunkSizeArg).response = renderChunk e chunkIndex)
    ∧ ((handleDownloadYoutubeUrl digest fetch now st url).entry = e
      ∧ (handleDownloadYoutubeUrl digest fetch now st url).fetched = false
      ∧ (handleDownloadYoutubeUrl digest fetch now st url).state (digest url) = some e) := by
  have hclean := cleanup_keep now st (digest url) e hst hfresh
  rw [handleGet_hit digest fetch now st url chunkIndex chunkSizeArg e hclean,
    handleDownload_hit digest fetch now st url e hclean]
  exact ⟨⟨rfl, rfl, hclean, rfl⟩, rfl, rfl, hclean⟩

/-- Claim C2 witness: instantiated on a one-entry cache five
milliseconds after population, with a different chunk_size (7). -/
theorem claimC2_unexpired_hit_returns_stored_entry_witness :
    ((handleGetYoutubeSubtitles id fetchX 5 stateC4 urlC4 0 (some 7)).entry = entryC4
      ∧ (handleGetYoutubeSubtitles id fetchX 5 stateC4 urlC4 0 (some 7)).fetched = false
      ∧ (handleGetYoutubeSubtitles id fetchX 5 stateC4 urlC4 0 (some 7)).state (id urlC4) = some entryC4
      ∧ (handleGetYoutubeSubtitles id fetchX 5 stateC4 urlC4 0 (some 7)).response = renderChunk entryC4 0)
    ∧ ((handleDownloadYoutubeUrl id fetchX 5 stateC4 urlC4).entry = entryC4
      ∧ (handleDownloadYoutubeUrl id fetchX 5 stateC4 urlC4).fetched = false
      ∧ (handleDownloadYoutubeUrl id fetchX 5 stateC4 urlC4).state (id urlC4) = some entryC4) :=
  claimC2_unexpired_hit_returns_stored_entry id fetchX 5 stateC4 urlC4 0 (some 7) entryC4
    (by decide) (by decide)

/-- The empty cache state. -/
def emptyState : CacheMap := fun _ => none

/-- A fetch stub returning the empty transcript. -/
def fetchEmpty : String → String := fun _ => ""

/-- Claim C10: when the downloaded content is empty, the stored entry
has zero chunks (not one empty chunk), and the download_youtube_url
success path reads index 0 of that empty array - the JavaScript value
undefined, modelled as text = none - so the response body is the result
of an out-of-bounds access rather than an empty chunk, while isError
stays false. -/
theorem claimC10_empty_transcript_zero_chunks (digest fetch : String → String)
    (now : Int) (st : CacheMap) (url : String)
    (hmiss : cleanupExpiredCache now st (digest url) = none)
    (hempty : fetch url = "") :
    (handleDownloadYoutubeUrl digest fetch now st url).entry.chunks = []
    ∧ (handleDownloadYoutubeUrl digest fetch now st url).entry.content = ""
    ∧ (handleDownloadYoutubeUrl digest fetch now st url).fetched = true
    ∧ (handleDownloadYoutubeUrl digest fetch now st url).response.text = none
    ∧ (handleDownloadYoutubeUrl digest fetch now st url).response.isError = false := by
  rw [handleDownload_miss digest fetch now st url hmiss]
  unfold freshDownloadEntry
  rw [hempty]
  exact ⟨rfl, rfl, rfl, rfl, rfl⟩

/-- Claim C10 witness: instantiated on the empty cache with the empty
transcript. -/
theorem claimC10_empty_transcript_zero_chunks_witness :
    (handleDownloadYoutubeUrl id fetchEmpty 0 emptyState urlC4).entry.chunks = []
    ∧ (handleDownloadYoutubeUrl id fetchEmpty 0 emptyState urlC4).entry.content = ""
    ∧ (handleDownloadYoutubeUrl id fetchEmpty 0 emptyState urlC4).fetched = true
    ∧ (handleDownloadYoutubeUrl id fetchEmpty 0 emptyState urlC4).response.text = none
    ∧ (handleDownloadYoutubeUrl id fetchEmpty 0 emptyState urlC4).response.isError = false :=
  claimC10_empty_transcript_zero_chunks id fetchEmpty 0 emptyState urlC4 rfl rfl

/-- Claim C8: for every cached entry served to a get_youtube_subtitles
request, a chunk index outside [0, chunks.length) - in particular -1
and chunks.length - produces the error envelope (isError set, a normal
return value, not a thrown exception) whose text names the valid range
0 to chunks.length - 1, and no index inside the range produces an
error. -/
theorem claimC8_out_of_range_error (digest fetch : String → String)
    (now : Int) (st : CacheMap) (url : String) (chunkIndex : Int)
    (chunkSizeArg : Option Int) (cache : SubtitleCache)
    (hst : st (digest url) = some cache) (hfresh : now - cache.timestamp ≤ CACHE_TTL) :
    ((chunkIndex < 0 ∨ (cache.chunks.length : Int) ≤ chunkIndex) →
      (handleGetYoutubeSubtitles digest fetch now st url chunkIndex chunkSizeArg).response =
        { text := some ( "Error: chunk_index " ++ intString chunkIndex ++
            " is out of range. Available chunks: 0-" ++
            intString ((cache.chunks.length : Int) - 1)),
          isError := true })
    ∧ (0 ≤ chunkIndex → chunkIndex < (cache.chunks.length : Int) →
      (handleGetYoutubeSubtitles digest fetch now st url chunkIndex chunkSizeArg).response.isError
        = false) := by
  have hclean := cleanup_keep now st (digest url) cache hst hfresh
  rw [handleGet_hit digest fetch now st url chunkIndex chunkSizeArg cache hclean]
  constructor
  · intro hout
    unfold renderChunk outOfRangeText
    rcases hout with h | h
    · simp [h]
    · simp [h]
  · intro h0 hlt
    unfold renderChunk
    have h1 : ¬ chunkIndex < 0 := by omega
    have h2 : ¬ (cache.chunks.length : Int) ≤ chunkIndex := by omega
    simp [h1, h2]

/-- An entry with two chunks for the pagination witnesses. -/
def entryC8 : SubtitleCache :=
  { url := "u", content := "abc", chunks := [ "ab", "c"], timestamp := 0 }

/-- A cache state holding entryC8 under its key. -/
def stateC8 : CacheMap :=
  fun key => if key = "u" then some entryC8 else none

/-- Claim C8 witness: instantiated at chunk index -1 on a two-chunk
entry; the in-range half is instantiated vacuously at the same index. -/
theorem claimC8_out_of_range_error_witness :
    ((-1 : Int) < 0 ∨ (entryC8.chunks.length : Int) ≤ -1 →
      (handleGetYoutubeSubtitles id fetchX 5 stateC8 urlC4 (-1) none).response =
        { text := some ( "Error: chunk_index " ++ intString (-1) ++
            " is out of range. Available chunks: 0-" ++
            intString ((entryC8.chunks.length : Int) - 1)),
          isError := true })
    ∧ (0 ≤ (-1 : Int) → (-1 : Int) < (entryC8.chunks.length : Int) →
      (handleGetYoutubeSubtitles id fetchX 5 stateC8 urlC4 (-1) none).response.isError = false) :=
  claimC8_out_of_range_error id fetchX 5 stateC8 urlC4 (-1) none entryC8 (by decide) (by decide)

theorem decimalDigitsGo_mem :
    ∀ (fuel n : Nat) (c : Char), c ∈ decimalDigitsGo fuel n → ∃ d, d < 10 ∧ c = digitChar d := by
  intro fuel
  induction fuel with
  | zero => intro n c hc; simp [decimalDigitsGo] at hc
  | succ fuel ih =>
    intro n c hc
    simp only [decimalDigitsGo] at hc
    by_cases hn : n < 10
    · rw [if_pos hn] at hc
      simp at hc
      exact ⟨n, hn, hc⟩
    · rw [if_neg hn] at hc
      rcases List.mem_append.mp hc with h | h
      · exact ih _ _ h
      · simp at h
        exact ⟨n % 10, Nat.mod_lt _ (by norm_num), h⟩

theorem underscore_not_in_decimalString (n : Nat) : '_' ∉ (decimalString n).data := by
  intro hmem
  simp only [decimalString, decimalDigits] at hmem
  obtain ⟨d, hd, hc⟩ := decimalDigitsGo_mem (n + 1) n '_' hmem
  interval_cases d <;> exact absurd hc (by decide)

theorem underscore_in_decimalString_eq_false (n : Nat) :
    ('_' ∈ (decimalString n).data) = False :=
  eq_false (underscore_not_in_decimalString n)

theorem memAppendStr (ch : Char) (a b : String) :
    ch ∈ (a ++ b).data ↔ ch ∈ a.data ∨ ch ∈ b.data := by
  rw [stringDataAppend]
  exact List.mem_append

theorem intString_natCast (n : Nat) : intString ((n : Nat) : Int) = decimalString n := by
  unfold intString
  rw [if_neg (by omega : ¬ ((n : Int) < 0))]
  have ht : ((n : Int)).toNat = n := by omega
  rw [ht]

theorem renderChunk_valid (cache : SubtitleCache) (i : Nat) (h : i < cache.chunks.length) :
    renderChunk cache (i : Int) =
      { text := some (cache.chunks.getD i emptyStr ++
          getPaginationFooter (i : Int) (cache.chunks.getD i emptyStr).length
            cache.chunks.length cache.content.length),
        isError := false } := by
  unfold renderChunk
  have h1 : ¬ (i : Int) < 0 := by omega
  have h2 : ¬ (cache.chunks.length : Int) ≤ (i : Int) := by omega
  have ht : ((i : Int)).toNat = i := by omega
  simp [h1, h2, ht]

theorem getPaginationFooter_natCast (i clen total contentLen : Nat) :
    getPaginationFooter (i : Int) clen total contentLen =
      "\n\n=== PAGINATION INFO ===\n" ++ "This is chunk " ++ decimalString (i + 1) ++
        " of " ++ decimalString total ++ " (" ++ decimalString clen ++ " characters)\n" ++
        "Total content length: " ++ decimalString contentLen ++ " characters\n" ++
        (if i + 1 < total then nextChunkHint ++ decimalString (i + 1) else lastChunkMarker) := by
  unfold getPaginationFooter
  have hcast : ((i : Int) + 1) = (((i + 1 : Nat)) : Int) := by push_cast; ring
  rw [hcast, intString_natCast]
  have hiff : ((i : Int) < (total : Int) - 1) ↔ (i + 1 < total) := by omega
  simp only [hiff]

theorem underscore_not_in_last_footer (a b c d : Nat) :
    '_' ∉ ( "\n\n=== PAGINATION INFO ===\n" ++ "This is chunk " ++ decimalString a ++
      " of " ++ decimalString b ++ " (" ++ decimalString c ++ " characters)\n" ++
      "Total content length: " ++ decimalString d ++ " characters\n" ++
      lastChunkMarker).data := by
  intro hmem
  simp +decide [memAppendStr, underscore_in_decimalString_eq_false, lastChunkMarker] at hmem

/-- Claim C9: for a cached entry and a valid chunk index the response is
not an error; its footer reports the 1-based chunk number i+1, the
total chunk count and the character length of the chunk (and of the
whole content); for every index before the last the footer ends by
naming exactly the immediately following index i+1 to request next, and
for the last valid index it ends with the terminal marker "This is the
last chunk." and the next-chunk hint occurs nowhere in the footer. -/
theorem claimC9_pagination_footer (cache : SubtitleCache) (i : Nat)
    (h : i < cache.chunks.length) :
    (renderChunk cache (i : Int)).isError = false
    ∧ (i + 1 < cache.chunks.length →
        (renderChunk cache (i : Int)).text =
          some (cache.chunks.getD i emptyStr ++
            ( "\n\n=== PAGINATION INFO ===\n" ++ "This is chunk " ++ decimalString (i + 1) ++
              " of " ++ decimalString cache.chunks.length ++
              " (" ++ decimalString (cache.chunks.getD i emptyStr).length ++ " characters)\n" ++
              "Total content length: " ++ decimalString cache.content.length ++ " characters\n" ++
              (nextChunkHint ++ decimalString (i + 1)))))
    ∧ (i + 1 = cache.chunks.length →
        (renderChunk cache (i : Int)).text =
          some (cache.chunks.getD i emptyStr ++
            ( "\n\n=== PAGINATION INFO ===\n" ++ "This is chunk " ++ decimalString (i + 1) ++
              " of " ++ decimalString cache.chunks.length ++
              " (" ++ decimalString (cache.chunks.getD i emptyStr).length ++ " characters)\n" ++
              "Total content length: " ++ decimalString cache.content.length ++ " characters\n" ++
              lastChunkMarker))
        ∧ ¬ (nextChunkHint.data <:+:
            ( "\n\n=== PAGINATION INFO ===\n" ++ "This is chunk " ++ decimalString (i + 1) ++
              " of " ++ decimalString cache.chunks.length ++
              " (" ++ decimalString (cache.chunks.getD i emptyStr).length ++ " characters)\n" ++
              "Total content length: " ++ decimalString cache.content.length ++ " characters\n" ++
              lastChunkMarker).data)) := by
  have hr := renderChunk_valid cache i h
  refine ⟨by rw [hr], ?_, ?_⟩
  · intro hlt
    rw [hr]
    simp only [getPaginationFooter_natCast]
    rw [if_pos hlt]
  · intro hlast
    constructor
    · rw [hr]
      simp only [getPaginationFooter_natCast]
      rw [if_neg (by omega)]
    · intro hinf
      have hu : '_' ∈ nextChunkHint.data := by decide
      exact underscore_not_in_last_footer (i + 1) cache.chunks.length
        (cache.chunks.getD i emptyStr).length cache.content.length (hinf.subset hu)

/-- Claim C9 witness: instantiated at the last valid index (1) of the
two-chunk entry. -/
theorem claimC9_pagination_footer_witness :
    (renderChunk entryC8 ((1 : Nat) : Int)).isError = false
    ∧ (1 + 1 < entryC8.chunks.length →
        (renderChunk entryC8 ((1 : Nat) : Int)).text =
          some (entryC8.chunks.getD 1 emptyStr ++
            ( "\n\n=== PAGINATION INFO ===\n" ++ "This is chunk " ++ decimalString (1 + 1) ++
              " of " ++ decimalString entryC8.chunks.length ++
              " (" ++ decimalString (entryC8.chunks.getD 1 emptyStr).length ++ " characters)\n" ++
              "Total content length: " ++ decimalString entryC8.content.length ++ " characters\n" ++
              (nextChunkHint ++ decimalString (1 + 1)))))
    ∧ (1 + 1 = entryC8.chunks.length →
        (renderChunk entryC8 ((1 : Nat) : Int)).text =
          some (entryC8.chunks.getD 1 emptyStr ++
            ( "\n\n=== PAGINATION INFO ===\n" ++ "This is chunk " ++ decimalString (1 + 1) ++
              " of " ++ decimalString entryC8.chunks.length ++
              " (" ++ decimalString (entryC8.chunks.getD 1 emptyStr).length ++ " characters)\n" ++
              "Total content length: " ++ decimalString entryC8.content.length ++ " characters\n" ++
              lastChunkMarker))
        ∧ ¬ (nextChunkHint.data <:+:
            ( "\n\n=== PAGINATION INFO ===\n" ++ "This is chunk " ++ decimalString (1 + 1) ++
              " of " ++ decimalString entryC8.chunks.length ++
              " (" ++ decimalString (entryC8.chunks.getD 1 emptyStr).length ++ " characters)\n" ++
              "Total content length: " ++ decimalString entryC8.content.length ++ " characters\n" ++
              lastChunkMarker).data)) :=
  claimC9_pagination_footer entryC8 1 (by decide)
